import Mathlib

/-!
Shallow embedding of the `nnimg` WEKA scripts
(`src/WEKA_Scripts/wekatokaggle.py` and `src/WEKA_Scripts/imgtocsv.py`)
together with theorems settling the specification claims about them.

File contents written by the Python code (CSV manifests, the Kaggle
submission table) are modelled as the list of chunks passed to
`file.write`, in order; every chunk the code writes is one line ending
in `"\n"`.  Errors raised by the Python code are modelled as an
`Option String` / `Except String` carrying the exception rendered as a
string, together with the partial output written before the raise.
-/

namespace WekaToKaggle

/-- Python's `s.split(sep)` for a one-character separator `sep`,
on the character list of the string: `"" ↦ [""]`, separators at the
ends produce empty fields, exactly as in Python. -/
def splitChar (sep : Char) : List Char → List (List Char)
  | [] => [[]]
  | c :: cs =>
    if c = sep then [] :: splitChar sep cs
    else
      match splitChar sep cs with
      | [] => [[c]]
      | g :: gs => (c :: g) :: gs

/-- `CSV_COLS` from wekatokaggle.py line 33: the output column names. -/
def CSV_COLS : List String :=
  ["image", "ALB", "BET", "DOL", "LAG", "NoF", "OTHER", "SHARK", "YFT"]

/-- The spec's fixed Label Set: the eight class labels (the columns of
`CSV_COLS` other than the leading `image` identifier column). -/
def LABEL_SET : List String :=
  ["ALB", "BET", "DOL", "LAG", "NoF", "OTHER", "SHARK", "YFT"]

/-- `CSV_COLS_MAP` from wekatokaggle.py line 34:
`{label: index for index, label in enumerate(CSV_COLS)}`, as an
association list queried with `List.lookup`. -/
def CSV_COLS_MAP : List (String × Nat) :=
  CSV_COLS.enum.map fun p => (p.2, p.1)

/-- `CSV_TITLE` from wekatokaggle.py line 35: `",".join(CSV_COLS)`. -/
def CSV_TITLE : String := String.intercalate "," CSV_COLS

/-- A cell of a Kaggle record: the Python list holds both strings
(the image name) and integers (the 0/1 one-hot entries). -/
inductive Cell where
  | str (s : String)
  | int (n : Nat)
deriving DecidableEq, Repr

/-- Python's `str()` applied to a record cell (`map(str, record)`). -/
def Cell.toStr : Cell → String
  | .str s => s
  | .int n => toString n

/-- Python's `str.isspace` on the ASCII whitespace characters that
`str.strip()` removes. -/
def pyIsSpace (c : Char) : Bool :=
  c = ' ' || c = '\t' || c = '\n' || c = '\r' || c = '\x0b' || c = '\x0c'

/-- Python's `line.strip()`: drop whitespace from both ends. -/
def pyStrip (s : String) : String :=
  String.mk (((s.data.dropWhile pyIsSpace).reverse.dropWhile pyIsSpace).reverse)

/-- `image_names_iter` (wekatokaggle.py lines 132-143): yields
`line.strip()` for each line of the image-names file. -/
def image_names_iter (lines : List String) : List String :=
  lines.map pyStrip

/-- The loop body of `predictions_csv_iter` (wekatokaggle.py lines
157-163) applied to one line: `val3 = line.split(",")[2]` followed by
`label = val3.split(":")[1]`.  A missing index raises `IndexError`. -/
def prediction_label (line : String) : Except String String :=
  match (splitChar ',' line.data).get? 2 with
  | none => .error "IndexError: list index out of range"
  | some val3 =>
    match (splitChar ':' val3).get? 1 with
    | none => .error "IndexError: list index out of range"
    | some label => .ok (String.mk label)

/-- `to_kaggle_record` (wekatokaggle.py lines 183-203): a list of
`len(CSV_COLS)` zeros, cell 0 overwritten with the image name, then
cell `CSV_COLS_MAP[prediction]` overwritten with 1; a prediction
absent from the map raises `KeyError`.  The `csv_cols` parameter is
accepted and ignored exactly as in the source (the body reads the
global `CSV_COLS`). -/
def to_kaggle_record (csv_cols : List String) (image_name prediction : String) :
    Except String (List Cell) :=
  let record := List.replicate CSV_COLS.length (Cell.int 0)
  let record := record.set 0 (Cell.str image_name)
  match List.lookup prediction CSV_COLS_MAP with
  | none => .error ("KeyError: " ++ prediction)
  | some i => .ok (record.set i (Cell.int 1))

/-- Outcome of a run of `weka_csv_to_kaggle`: the chunks written to the
output file, in order, and the exception (if any) that aborted it. -/
structure RunResult where
  out : List String
  err : Option String
deriving DecidableEq, Repr

/-- The `for image_name, prediction in zip(...)` loop of
`weka_csv_to_kaggle` (lines 229-238): each pulled prediction line is
decoded by `prediction_label`, turned into a record, and the record is
written comma-joined with a trailing newline; any raise stops the loop
keeping the output written so far. -/
def runStep : List (String × String) → List String → RunResult
  | [], out => ⟨out, none⟩
  | (image_name, line) :: rest, out =>
    match prediction_label line with
    | .error e => ⟨out, some e⟩
    | .ok prediction =>
      match to_kaggle_record CSV_COLS image_name prediction with
      | .error e => ⟨out, some e⟩
      | .ok record =>
        runStep rest (out ++ [String.intercalate "," (record.map Cell.toStr) ++ "\n"])

/-- `weka_csv_to_kaggle` (wekatokaggle.py lines 205-238) on the lines
of the two input files: writes `CSV_TITLE + "\n"`, discards the first
prediction line (`predictions_file.readline()`), and runs the zip
loop.  `zip` truncates at the shorter stream, so prediction lines
beyond the pairing are never decoded. -/
def weka_csv_to_kaggle (image_names_lines prediction_lines : List String) : RunResult :=
  runStep ((image_names_iter image_names_lines).zip (prediction_lines.drop 1))
    [CSV_TITLE ++ "\n"]

/-- Modelled from the spec (§4.2), for comparison with the code's
decoding: "the label is the substring after the first `:` in that
third field" — everything of the field strictly after its first
colon. -/
def spec_label_after_first_colon (field : String) : String :=
  String.mk ((field.data.dropWhile (· ≠ ':')).drop 1)

/-- The expected submission line for one paired instance whose decoded
label lies in the Label Set: the stripped image name followed by the
eight one-hot cells, comma-joined and newline-terminated. -/
def rowString (image_name label : String) : String :=
  String.intercalate ","
    (image_name :: LABEL_SET.map fun c => if c = label then "1" else "0") ++ "\n"

/-- A Python value that can reach `open`: a string path or a list
(`parse_predictions_csv` rebinds its path parameter to `[]`). -/
inductive PyVal where
  | str (s : String)
  | list (xs : List String)

/-- Python's `open` for reading, over an abstract file system `fs`
mapping paths to file lines: a list argument raises `TypeError`. -/
def pyOpen (fs : String → Option (List String)) : PyVal → Except String (List String)
  | .str s =>
    match fs s with
    | some lines => .ok lines
    | none => .error ("FileNotFoundError: " ++ s)
  | .list _ => .error "TypeError: expected str, bytes or os.PathLike object, not list"

/-- The `for line in f` loop of `parse_predictions_csv` (lines
119-125): the local `label` starts unbound (`none`); the body reads
`label.split(":")[1]` before `label` is ever assigned, so the first
iteration raises `UnboundLocalError`. -/
def parseLoop : List String → Option String → List String → Except String (List String)
  | [], _, acc => .ok acc
  | line :: rest, labelVar, acc =>
    match (splitChar ',' line.data).get? 2 with
    | none => .error "IndexError: list index out of range"
    | some _val3 =>
      match labelVar with
      | none => .error "UnboundLocalError: local variable referenced before assignment"
      | some lab =>
        match (splitChar ':' lab.data).get? 1 with
        | none => .error "IndexError: list index out of range"
        | some l => parseLoop rest (some (String.mk l)) (acc ++ [String.mk l])

/-- Python's `del xs[0]` (line 128): raises `IndexError` on an empty
list. -/
def pyDelFirst (xs : List String) : Except String (List String) :=
  match xs with
  | [] => .error "IndexError: list assignment index out of range"
  | _ :: rest => .ok rest

/-- `parse_predictions_csv` (wekatokaggle.py lines 106-130): the body
begins with `predictions = []`, rebinding the path parameter to an
empty list before `open(predictions)` is reached. -/
def parse_predictions_csv (fs : String → Option (List String)) (predictions : String) :
    Except String (List String) :=
  let predictions : PyVal := .list []
  match pyOpen fs predictions with
  | .error e => .error e
  | .ok lines =>
    match parseLoop lines none [] with
    | .error e => .error e
    | .ok preds => pyDelFirst preds

end WekaToKaggle

namespace ImgToCsv

/-- `CSV_TITLE` from imgtocsv.py line 78. -/
def CSV_TITLE : String := "imgfile,class"

/-- One entry of a directory listing, with the result of the
`os.path.isfile` check on it (`isFile = false` models a nested folder
or other non-regular entry, which the code silently skips). -/
structure FSEntry where
  name : String
  isFile : Bool
deriving DecidableEq, Repr

/-- One entry of the top-level input-directory listing: either a
first-level subdirectory (with its own listing) or a plain file. -/
inductive TopEntry where
  | dir (name : String) (entries : List FSEntry)
  | file (name : String)
deriving DecidableEq, Repr

/-- Outcome of a manifest-builder run: the chunks written to the CSV
file in order, the symlinks created (link name, target path) in
creation order, and the exception (if any) that aborted the run. -/
structure TrainResult where
  csv : List String
  links : List (String × String)
  err : Option String
deriving DecidableEq, Repr

/-- `os.path.join` for the relative paths the scripts build. -/
def pathJoin (a b : String) : String := a ++ "/" ++ b

/-- The first-level subdirectories of the listing, in listing order,
paired with their own listings (`get_subdirs`, imgtocsv.py lines
128-144, keeps exactly the entries for which `os.path.isdir` holds). -/
def subdirsOf (listing : List TopEntry) : List (String × List FSEntry) :=
  listing.filterMap fun e =>
    match e with
    | .dir n es => some (n, es)
    | .file _ => none

/-- `get_subdirs` (imgtocsv.py lines 128-144): raises `ValueError` if
the input directory has no subdirectories. -/
def get_subdirs (listing : List TopEntry) : Except String (List (String × List FSEntry)) :=
  let subdirs := subdirsOf listing
  if subdirs.isEmpty then
    .error "ValueError: There were no subdirectories found"
  else
    .ok subdirs

/-- `os.symlink(target, linkName)` into the flat link directory:
raises `FileExistsError` if a link of that name already exists,
otherwise records the new link. -/
def symlink (links : List (String × String)) (target linkName : String) :
    Except String (List (String × String)) :=
  if (links.map Prod.fst).contains linkName then
    .error ("FileExistsError: " ++ linkName)
  else
    .ok (links ++ [(linkName, target)])

/-- The inner `for img in os.listdir(subdir_path)` loop of
`training_set_csv` (lines 171-178): for each regular file, the CSV row
is written first and the symlink is attempted second, so a collision
aborts after the row for the colliding file is already written. -/
def trainEntries (input_dir subdir : String) :
    List FSEntry → List String → List (String × String) → TrainResult
  | [], csv, links => ⟨csv, links, none⟩
  | e :: rest, csv, links =>
    if e.isFile then
      let csv' := csv ++ [e.name ++ "," ++ subdir ++ "\n"]
      match symlink links (pathJoin (pathJoin input_dir subdir) e.name) e.name with
      | .error err => ⟨csv', links, some err⟩
      | .ok links' => trainEntries input_dir subdir rest csv' links'
    else
      trainEntries input_dir subdir rest csv links

/-- The outer `for subdir in subdirs` loop of `training_set_csv`
(lines 169-178). -/
def trainDirs (input_dir : String) :
    List (String × List FSEntry) → List String → List (String × String) → TrainResult
  | [], csv, links => ⟨csv, links, none⟩
  | (name, entries) :: rest, csv, links =>
    match trainEntries input_dir name entries csv links with
    | ⟨csv', links', some err⟩ => ⟨csv', links', some err⟩
    | ⟨csv', links', none⟩ => trainDirs input_dir rest csv' links'

/-- `training_set_csv` (imgtocsv.py lines 146-180) on the listing of
the input directory: writes the header line, then walks the label
subfolders; the flat link directory starts empty (a fresh run). -/
def training_set_csv (input_dir : String) (listing : List TopEntry) : TrainResult :=
  match get_subdirs listing with
  | .error e => ⟨[], [], some e⟩
  | .ok subdirs => trainDirs input_dir subdirs [CSV_TITLE ++ "\n"] []

/-- `test_set_csv` (imgtocsv.py lines 182-201): header line, then one
row `"{},0\n"` per regular file of `sorted(os.listdir(input_dir))`;
no symlink is ever created. -/
def test_set_csv (listing : List FSEntry) : TrainResult :=
  ⟨(CSV_TITLE ++ "\n") ::
      ((listing.insertionSort fun a b => a.name ≤ b.name).filter (·.isFile)).map
        (fun e => e.name ++ ",0\n"),
    [], none⟩

instance nameLeTotal : IsTotal FSEntry fun a b => a.name ≤ b.name :=
  ⟨fun a b => le_total a.name b.name⟩

instance nameLeTrans : IsTrans FSEntry fun a b => a.name ≤ b.name :=
  ⟨fun _ _ _ h₁ h₂ => le_trans h₁ h₂⟩

end ImgToCsv

namespace WekaToKaggle

theorem splitChar_ne_nil (sep : Char) (cs : List Char) : splitChar sep cs ≠ [] := by
  induction cs with
  | nil => simp [splitChar]
  | cons c cs ih =>
    simp only [splitChar]
    split
    · simp
    · cases h : splitChar sep cs <;> simp

/-- Splitting `xs ++ ys` when `xs` is separator-free: `xs` fuses onto
the first field of the split of `ys`. -/
theorem splitChar_append (sep : Char) {xs : List Char} (ys : List Char) (h : sep ∉ xs) :
    splitChar sep (xs ++ ys) =
      (xs ++ (splitChar sep ys).headI) :: (splitChar sep ys).tail := by
  induction xs with
  | nil =>
    simp only [List.nil_append]
    cases h' : splitChar sep ys with
    | nil => exact absurd h' (splitChar_ne_nil sep ys)
    | cons g gs => simp
  | cons c xs ih =>
    have hc : ¬(c = sep) := fun hcs => h (by simp [hcs])
    have hxs : sep ∉ xs := fun hm => h (List.mem_cons_of_mem _ hm)
    simp only [List.cons_append, splitChar, if_neg hc, List.append_eq]
    rw [ih hxs]

/-- Splitting at an explicit separator after a separator-free prefix. -/
theorem splitChar_sep_cons (sep : Char) {xs : List Char} (ys : List Char) (h : sep ∉ xs) :
    splitChar sep (xs ++ sep :: ys) = xs :: splitChar sep ys := by
  rw [splitChar_append sep (sep :: ys) h]
  have hsep : splitChar sep (sep :: ys) = [] :: splitChar sep ys := by
    simp [splitChar]
  rw [hsep]
  simp

/-- A separator-free list splits into the single field it is. -/
theorem splitChar_of_not_mem (sep : Char) {xs : List Char} (h : sep ∉ xs) :
    splitChar sep xs = [xs] := by
  have := splitChar_append sep [] h
  simpa [splitChar] using this

theorem string_data_mk (l : List Char) : (String.mk l).data = l := rfl

theorem get?_two {α : Type} (a b x : α) (t : List α) : (a :: b :: x :: t).get? 2 = some x := rfl

theorem get?_one {α : Type} (a x : α) (t : List α) : (a :: x :: t).get? 1 = some x := rfl

/-- Decoding a prediction line whose third field contains two or more
colons: the label is the token between the first and the second colon
(`r` is arbitrary and may contain further colons or commas). -/
theorem prediction_label_two_colons (a b p q r : List Char)
    (ha : ',' ∉ a) (hb : ',' ∉ b)
    (hp₁ : ',' ∉ p) (hp₂ : ':' ∉ p) (hq₁ : ',' ∉ q) (hq₂ : ':' ∉ q) :
    prediction_label (String.mk (a ++ ',' :: (b ++ ',' :: (p ++ ':' :: (q ++ ':' :: r))))) =
      .ok (String.mk q) := by
  have hx : ',' ∉ p ++ ':' :: (q ++ [':']) := by
    intro hm
    rcases List.mem_append.mp hm with hm | hm
    · exact hp₁ hm
    · rcases List.mem_cons.mp hm with hm | hm
      · exact absurd hm.symm (by decide)
      · rcases List.mem_append.mp hm with hm | hm
        · exact hq₁ hm
        · simp at hm
  have e1 : splitChar ',' (a ++ ',' :: (b ++ ',' :: (p ++ ':' :: (q ++ ':' :: r)))) =
      a :: b :: ((p ++ ':' :: (q ++ ':' :: (splitChar ',' r).headI)) ::
        (splitChar ',' r).tail) := by
    rw [splitChar_sep_cons ',' _ ha, splitChar_sep_cons ',' _ hb,
      show p ++ ':' :: (q ++ ':' :: r) = (p ++ ':' :: (q ++ [':'])) ++ r by simp,
      splitChar_append ',' r hx]
    simp
  have e2 : splitChar ':' (p ++ ':' :: (q ++ ':' :: (splitChar ',' r).headI)) =
      p :: q :: splitChar ':' (splitChar ',' r).headI := by
    rw [splitChar_sep_cons ':' _ hp₂, splitChar_sep_cons ':' _ hq₂]
  unfold prediction_label
  rw [string_data_mk, e1, get?_two]
  dsimp only
  rw [e2, get?_one]

/-- Decoding a prediction line whose third field contains exactly one
colon: the label is everything after that colon. -/
theorem prediction_label_one_colon (a b p q : List Char)
    (ha : ',' ∉ a) (hb : ',' ∉ b)
    (hp₁ : ',' ∉ p) (hp₂ : ':' ∉ p) (hq₁ : ',' ∉ q) (hq₂ : ':' ∉ q) :
    prediction_label (String.mk (a ++ ',' :: (b ++ ',' :: (p ++ ':' :: q)))) =
      .ok (String.mk q) := by
  have hx : ',' ∉ p ++ ':' :: q := by
    intro hm
    rcases List.mem_append.mp hm with hm | hm
    · exact hp₁ hm
    · rcases List.mem_cons.mp hm with hm | hm
      · exact absurd hm.symm (by decide)
      · exact hq₁ hm
  have e1 : splitChar ',' (a ++ ',' :: (b ++ ',' :: (p ++ ':' :: q))) =
      a :: b :: ((p ++ ':' :: q) :: []) := by
    rw [splitChar_sep_cons ',' _ ha, splitChar_sep_cons ',' _ hb,
      splitChar_of_not_mem ',' hx]
  have e2 : splitChar ':' (p ++ ':' :: q) = p :: (q :: []) := by
    rw [splitChar_sep_cons ':' _ hp₂, splitChar_of_not_mem ':' hq₂]
  unfold prediction_label
  rw [string_data_mk, e1, get?_two]
  dsimp only
  rw [e2, get?_one]

/-- Decoding a prediction line whose third field contains exactly one
colon and is followed by further comma-delimited fields (`t` is
arbitrary): the label is everything of the field after its colon. -/
theorem prediction_label_one_colon_more_fields (a b p q t : List Char)
    (ha : ',' ∉ a) (hb : ',' ∉ b)
    (hp₁ : ',' ∉ p) (hp₂ : ':' ∉ p) (hq₁ : ',' ∉ q) (hq₂ : ':' ∉ q) :
    prediction_label (String.mk (a ++ ',' :: (b ++ ',' :: (p ++ ':' :: (q ++ ',' :: t))))) =
      .ok (String.mk q) := by
  have hx : ',' ∉ p ++ ':' :: q := by
    intro hm
    rcases List.mem_append.mp hm with hm | hm
    · exact hp₁ hm
    · rcases List.mem_cons.mp hm with hm | hm
      · exact absurd hm.symm (by decide)
      · exact hq₁ hm
  have e1 : splitChar ',' (a ++ ',' :: (b ++ ',' :: (p ++ ':' :: (q ++ ',' :: t)))) =
      a :: b :: ((p ++ ':' :: q) :: splitChar ',' t) := by
    rw [splitChar_sep_cons ',' _ ha, splitChar_sep_cons ',' _ hb,
      show p ++ ':' :: (q ++ ',' :: t) = (p ++ ':' :: q) ++ ',' :: t by simp,
      splitChar_sep_cons ',' _ hx]
  have e2 : splitChar ':' (p ++ ':' :: q) = p :: (q :: []) := by
    rw [splitChar_sep_cons ':' _ hp₂, splitChar_of_not_mem ':' hq₂]
  unfold prediction_label
  rw [string_data_mk, e1, get?_two]
  dsimp only
  rw [e2, get?_one]

/-- The column list is the `image` identifier column followed by the
Label Set. -/
theorem CSV_COLS_eq : CSV_COLS = "image" :: LABEL_SET := rfl

/-- A paired instance that decodes to a label of the Label Set. -/
def goodPair (pr : String × String) (l : String) : Prop :=
  prediction_label pr.2 = .ok l ∧ l ∈ LABEL_SET

/-- For a label of the Label Set, `to_kaggle_record` returns the image
name followed by the one-hot cells over the Label Set. -/
theorem to_kaggle_record_of_mem (name label : String) (h : label ∈ LABEL_SET) :
    to_kaggle_record CSV_COLS name label =
      .ok (Cell.str name :: LABEL_SET.map fun c => if c = label then Cell.int 1 else Cell.int 0) := by
  fin_cases h <;> rfl

/-- Stringifying the record of a Label Set label gives the name and
the `"0"`/`"1"` cells. -/
theorem record_toStr (name label : String) :
    (Cell.str name ::
        LABEL_SET.map fun c => if c = label then Cell.int 1 else Cell.int 0).map Cell.toStr =
      name :: LABEL_SET.map fun c => if c = label then "1" else "0" := by
  simp only [List.map_cons, List.map_map, Cell.toStr]
  congr 1
  apply List.map_congr_left
  intro c _
  by_cases hc : c = label <;> simp [hc, Cell.toStr] <;> rfl

/-- Running the zip loop over a prefix whose decoded labels all lie in
the Label Set writes exactly the corresponding one-hot rows and
continues with the remaining pairs. -/
theorem runStep_append {pairs : List (String × String)} {labels : List String}
    (h : List.Forall₂ goodPair pairs labels) :
    ∀ (rest : List (String × String)) (out : List String),
      runStep (pairs ++ rest) out =
        runStep rest (out ++ (pairs.zip labels).map fun x => rowString x.1.1 x.2) := by
  induction h with
  | nil =>
    intro rest out
    simp
  | @cons pr l prs ls hpr _ ih =>
    intro rest out
    obtain ⟨name, line⟩ := pr
    have hlab : prediction_label line = .ok l := hpr.1
    have hrec := to_kaggle_record_of_mem name l hpr.2
    simp only [List.cons_append, runStep, hlab, hrec, record_toStr, List.append_eq]
    rw [ih rest]
    simp [rowString, List.append_assoc]

/-- Running the zip loop over pairs that all decode to a key of the
full column map raises nothing and writes one row per pair. -/
theorem runStep_ok_of :
    ∀ pairs : List (String × String),
      (∀ pr ∈ pairs, ∃ l, prediction_label pr.2 = .ok l ∧
        (List.lookup l CSV_COLS_MAP).isSome) →
      ∀ out : List String,
        (runStep pairs out).err = none ∧
          (runStep pairs out).out.length = out.length + pairs.length := by
  intro pairs
  induction pairs with
  | nil =>
    intro h out
    exact ⟨rfl, rfl⟩
  | cons pr rest ih =>
    intro h out
    obtain ⟨name, line⟩ := pr
    obtain ⟨l, hdec, hsome⟩ := h _ (List.mem_cons_self _ _)
    obtain ⟨i, hi⟩ := Option.isSome_iff_exists.mp hsome
    have hrest : ∀ pr ∈ rest, ∃ l, prediction_label pr.2 = .ok l ∧
        (List.lookup l CSV_COLS_MAP).isSome :=
      fun pr hm => h pr (List.mem_cons_of_mem _ hm)
    have hrec : ∃ rec, to_kaggle_record CSV_COLS name l = .ok rec := by
      unfold to_kaggle_record
      rw [hi]
      exact ⟨_, rfl⟩
    obtain ⟨rec, hrec⟩ := hrec
    simp only [runStep, hdec, hrec]
    constructor
    · exact (ih hrest _).1
    · rw [(ih hrest _).2]
      simp only [List.length_append, List.length_cons, List.length_nil]
      omega

end WekaToKaggle

namespace ImgToCsv

theorem contains_eq_false_of_not_mem {l : List String} {a : String} (h : a ∉ l) :
    l.contains a = false := by
  simp [List.contains, List.elem_eq_mem, h]

/-- The inner file loop on a subfolder of regular files with fresh,
duplicate-free names: one CSV row and one link per file, no raise. -/
theorem trainEntries_ok (input sub : String) :
    ∀ (entries : List FSEntry) (csv : List String) (links : List (String × String)),
      (∀ e ∈ entries, e.isFile = true) →
      (∀ e ∈ entries, e.name ∉ links.map Prod.fst) →
      (entries.map FSEntry.name).Nodup →
      trainEntries input sub entries csv links =
        ⟨csv ++ entries.map (fun e => e.name ++ "," ++ sub ++ "\n"),
          links ++ entries.map (fun e => (e.name, pathJoin (pathJoin input sub) e.name)),
          none⟩ := by
  intro entries
  induction entries with
  | nil =>
    intro csv links _ _ _
    simp [trainEntries]
  | cons e rest ih =>
    intro csv links hf hfresh hnd
    have hef : e.isFile = true := hf e (List.mem_cons_self _ _)
    have hefresh : e.name ∉ links.map Prod.fst := hfresh e (List.mem_cons_self _ _)
    have hcontains := contains_eq_false_of_not_mem hefresh
    simp only [trainEntries, hef, if_true, symlink, hcontains, Bool.false_eq_true,
      if_false]
    rw [ih (csv ++ [e.name ++ "," ++ sub ++ "\n"])
      (links ++ [(e.name, pathJoin (pathJoin input sub) e.name)])
      (fun x hx => hf x (List.mem_cons_of_mem _ hx))
      ?_ (List.nodup_cons.mp hnd).2]
    · simp
    · intro x hx
      have hx₁ : x.name ∉ links.map Prod.fst := hfresh x (List.mem_cons_of_mem _ hx)
      have hx₂ : x.name ≠ e.name := by
        intro hEq
        exact (List.nodup_cons.mp hnd).1 (hEq ▸ List.mem_map_of_mem FSEntry.name hx)
      simp [hx₁, hx₂]

/-- The outer subfolder loop under globally duplicate-free filenames:
rows grouped by label in listing order, one link per file, no raise. -/
theorem trainDirs_ok (input : String) :
    ∀ (subdirs : List (String × List FSEntry)) (csv : List String)
      (links : List (String × String)),
      (∀ d ∈ subdirs, ∀ e ∈ d.2, e.isFile = true) →
      (links.map Prod.fst ++ subdirs.flatMap fun d => d.2.map FSEntry.name).Nodup →
      trainDirs input subdirs csv links =
        ⟨csv ++ subdirs.flatMap (fun d => d.2.map fun e => e.name ++ "," ++ d.1 ++ "\n"),
          links ++ subdirs.flatMap (fun d => d.2.map fun e =>
            (e.name, pathJoin (pathJoin input d.1) e.name)),
          none⟩ := by
  intro subdirs
  induction subdirs with
  | nil =>
    intro csv links _ _
    simp [trainDirs]
  | cons d rest ih =>
    intro csv links hf hnd
    obtain ⟨nm, es⟩ := d
    have hnd' := hnd
    rw [List.flatMap_cons] at hnd'
    have hsplit := List.nodup_append.mp (by
      rw [show links.map Prod.fst ++ (es.map FSEntry.name ++
          rest.flatMap fun d => d.2.map FSEntry.name) =
          (links.map Prod.fst ++ es.map FSEntry.name) ++
            rest.flatMap fun d => d.2.map FSEntry.name by simp
        ] at hnd'
      exact hnd')
    have hlnodup : (links.map Prod.fst ++ es.map FSEntry.name).Nodup := hsplit.1
    have hinner := List.nodup_append.mp hlnodup
    have he := trainEntries_ok input nm es csv links
      (hf (nm, es) (List.mem_cons_self _ _))
      (fun e he => fun hmem => hinner.2.2 hmem (List.mem_map_of_mem FSEntry.name he))
      hinner.2.1
    simp only [trainDirs, he]
    rw [ih (csv ++ es.map fun e => e.name ++ "," ++ nm ++ "\n")
      (links ++ es.map fun e => (e.name, pathJoin (pathJoin input nm) e.name))
      (fun x hx => hf x (List.mem_cons_of_mem _ hx)) ?_]
    · simp
    · rw [List.map_append, List.map_map]
      have : (Prod.fst ∘ fun e : FSEntry =>
          (e.name, pathJoin (pathJoin input nm) e.name)) = FSEntry.name := by
        funext e
        rfl
      rw [this, List.append_assoc]
      rw [List.flatMap_cons] at hnd
      simpa using hnd

theorem contains_eq_true_of_mem {l : List String} {a : String} (h : a ∈ l) :
    l.contains a = true := by
  simp [List.contains, List.elem_eq_mem, h]

/-- The link names produced for one subfolder are the names of its
regular files. -/
theorem entry_links_map_fst (input sub : String) (es : List FSEntry) :
    (((es.filter fun e => e.isFile).map fun e =>
        (e.name, pathJoin (pathJoin input sub) e.name)).map Prod.fst) =
      (es.filter fun e => e.isFile).map FSEntry.name := by
  rw [List.map_map]
  rfl

/-- The link names produced for a list of subfolders are the flattened
names of their regular files. -/
theorem dir_links_map_fst (input : String) (l : List (String × List FSEntry)) :
    ((l.flatMap fun d => (d.2.filter fun e => e.isFile).map fun e =>
        (e.name, pathJoin (pathJoin input d.1) e.name)).map Prod.fst) =
      l.flatMap fun d => (d.2.filter fun e => e.isFile).map FSEntry.name := by
  induction l with
  | nil => rfl
  | cons d rest ih =>
    rw [List.flatMap_cons, List.flatMap_cons, List.map_append, ih,
      entry_links_map_fst]

/-- The inner file loop over a duplicate-free prefix of entries (files
or not) writes one row and one link per regular file and continues
with the remaining entries. -/
theorem trainEntries_clean_append (input sub : String) :
    ∀ (preE rest : List FSEntry) (csv : List String) (links : List (String × String)),
      (links.map Prod.fst ++ (preE.filter fun e => e.isFile).map FSEntry.name).Nodup →
      trainEntries input sub (preE ++ rest) csv links =
        trainEntries input sub rest
          (csv ++ (preE.filter fun e => e.isFile).map fun e => e.name ++ "," ++ sub ++ "\n")
          (links ++ (preE.filter fun e => e.isFile).map fun e =>
            (e.name, pathJoin (pathJoin input sub) e.name)) := by
  intro preE
  induction preE with
  | nil =>
    intro rest csv links _
    simp
  | cons e preE ih =>
    intro rest csv links hnd
    cases hef : e.isFile with
    | false =>
      have hfilter : (e :: preE).filter (fun e => e.isFile) =
          preE.filter fun e => e.isFile := by
        simp [List.filter_cons, hef]
      rw [hfilter] at hnd
      simp only [List.cons_append, trainEntries, hef, Bool.false_eq_true, if_false,
        List.append_eq]
      rw [ih rest csv links hnd, hfilter]
    | true =>
      have hfilter : (e :: preE).filter (fun e => e.isFile) =
          e :: preE.filter fun e => e.isFile := by
        simp [List.filter_cons, hef]
      rw [hfilter] at hnd
      have hfresh : e.name ∉ links.map Prod.fst := by
        intro hmem
        exact (List.nodup_append.mp hnd).2.2 hmem (List.mem_cons_self _ _)
      have hnd' : ((links ++ [(e.name, pathJoin (pathJoin input sub) e.name)]).map
            Prod.fst ++ (preE.filter fun e => e.isFile).map FSEntry.name).Nodup := by
        rw [List.map_append, List.append_assoc]
        simpa using hnd
      simp only [List.cons_append, trainEntries, hef, if_true, symlink,
        contains_eq_false_of_not_mem hfresh, Bool.false_eq_true, if_false,
        List.append_eq]
      rw [ih rest _ _ hnd', hfilter]
      simp

/-- The outer subfolder loop over a duplicate-free prefix of
subfolders writes that prefix's rows and links and continues with the
remaining subfolders. -/
theorem trainDirs_clean_append (input : String) :
    ∀ (preD rest : List (String × List FSEntry)) (csv : List String)
      (links : List (String × String)),
      (links.map Prod.fst ++ preD.flatMap fun d =>
        (d.2.filter fun e => e.isFile).map FSEntry.name).Nodup →
      trainDirs input (preD ++ rest) csv links =
        trainDirs input rest
          (csv ++ preD.flatMap fun d => (d.2.filter fun e => e.isFile).map fun e =>
            e.name ++ "," ++ d.1 ++ "\n")
          (links ++ preD.flatMap fun d => (d.2.filter fun e => e.isFile).map fun e =>
            (e.name, pathJoin (pathJoin input d.1) e.name)) := by
  intro preD
  induction preD with
  | nil =>
    intro rest csv links _
    simp
  | cons d preD ih =>
    intro rest csv links hnd
    obtain ⟨nm, es⟩ := d
    rw [List.flatMap_cons] at hnd
    have hes : (links.map Prod.fst ++
        (es.filter fun e => e.isFile).map FSEntry.name).Nodup := by
      refine List.Nodup.sublist ?_ hnd
      rw [← List.append_assoc]
      exact List.sublist_append_left _ _
    have he := trainEntries_clean_append input nm es [] csv links hes
    rw [List.append_nil] at he
    have hnd' : ((links ++ (es.filter fun e => e.isFile).map fun e =>
          (e.name, pathJoin (pathJoin input nm) e.name)).map Prod.fst ++
        preD.flatMap fun d => (d.2.filter fun e => e.isFile).map FSEntry.name).Nodup := by
      rw [List.map_append, entry_links_map_fst, List.append_assoc]
      exact hnd
    simp only [List.cons_append, trainDirs, he, trainEntries, List.append_eq]
    rw [ih rest _ _ hnd']
    simp

end ImgToCsv

/-- C1: on the spec's example input (image names `"f1.jpg\n"`,
`"f2.jpg\n"`; predictions `"header\n"`, `"x,y,0.9:DOL\n"`,
`"x,y,0.1:YFT\n"`) the remapper does NOT write the three claimed lines:
`predictions_csv_iter` never strips the trailing newline, the decoded
label `"DOL\n"` is not a key of `CSV_COLS_MAP`, and the run raises
`KeyError` having written only the header line. -/
theorem c1_spec_example_run_raises_key_error :
    WekaToKaggle.weka_csv_to_kaggle ["f1.jpg\n", "f2.jpg\n"]
        ["header\n", "x,y,0.9:DOL\n", "x,y,0.1:YFT\n"] =
      ⟨["image,ALB,BET,DOL,LAG,NoF,OTHER,SHARK,YFT\n"], some "KeyError: DOL\n"⟩ ∧
    WekaToKaggle.prediction_label "x,y,0.9:DOL\n" = .ok "DOL\n" ∧
    "DOL\n" ∉ WekaToKaggle.LABEL_SET :=
  ⟨rfl, rfl, by decide⟩

/-- C2 counterexample: for the prediction line `"x,y,p:Q:R"` the third
comma-delimited field is `"p:Q:R"`, the substring after its first `:`
is `"Q:R"`, but the code decodes the label `"Q"` (the token between
the first and second colon). -/
theorem c2_counterexample_multi_colon :
    (WekaToKaggle.splitChar ',' ("x,y,p:Q:R").data).get? 2 = some ("p:Q:R").data ∧
    WekaToKaggle.spec_label_after_first_colon "p:Q:R" = "Q:R" ∧
    WekaToKaggle.prediction_label "x,y,p:Q:R" = .ok "Q" ∧
    ("Q" : String) ≠ "Q:R" :=
  ⟨rfl, rfl, rfl, by decide⟩

/-- C2 (amended): the decoded label is the token of the third
comma-delimited field between its first and second `:` (everything
after the first `:` only when the field has exactly one `:`), and the
very first line of the predictions stream is discarded unexamined
before pairing begins.  The three decode conjuncts cover every
prediction line whose third field contains a colon: a field with two
or more colons followed by anything (`r` arbitrary), a one-colon
field ending the line, and a one-colon field followed by further
fields (`t` arbitrary). -/
theorem c2_amended_decoded_label :
    (∀ a b p q r : List Char,
      ',' ∉ a → ',' ∉ b → ',' ∉ p → ':' ∉ p → ',' ∉ q → ':' ∉ q →
      WekaToKaggle.prediction_label
          (String.mk (a ++ ',' :: (b ++ ',' :: (p ++ ':' :: (q ++ ':' :: r))))) =
        .ok (String.mk q)) ∧
    (∀ a b p q : List Char,
      ',' ∉ a → ',' ∉ b → ',' ∉ p → ':' ∉ p → ',' ∉ q → ':' ∉ q →
      WekaToKaggle.prediction_label
          (String.mk (a ++ ',' :: (b ++ ',' :: (p ++ ':' :: q)))) =
        .ok (String.mk q)) ∧
    (∀ a b p q t : List Char,
      ',' ∉ a → ',' ∉ b → ',' ∉ p → ':' ∉ p → ',' ∉ q → ':' ∉ q →
      WekaToKaggle.prediction_label
          (String.mk (a ++ ',' :: (b ++ ',' :: (p ++ ':' :: (q ++ ',' :: t))))) =
        .ok (String.mk q)) ∧
    (∀ (image_names_lines : List String) (l₀ l₀' : String) (rest : List String),
      WekaToKaggle.weka_csv_to_kaggle image_names_lines (l₀ :: rest) =
        WekaToKaggle.weka_csv_to_kaggle image_names_lines (l₀' :: rest)) :=
  ⟨WekaToKaggle.prediction_label_two_colons,
    WekaToKaggle.prediction_label_one_colon,
    WekaToKaggle.prediction_label_one_colon_more_fields,
    fun _ _ _ _ => rfl⟩

/-- Witness for C2 (amended) at concrete inputs: the line
`"x,y,0.9:DOL:0.1"` decodes to `"DOL"`, the line `"x,y,0.9:DOL"`
decodes to `"DOL"`, the standard five-field Weka line
`"1,1:ALB,2:BET,+,0.5"` decodes to `"BET"`, and replacing the
discarded header line does not change the run. -/
theorem c2_amended_decoded_label_witness :
    WekaToKaggle.prediction_label "x,y,0.9:DOL:0.1" = .ok "DOL" ∧
    WekaToKaggle.prediction_label "x,y,0.9:DOL" = .ok "DOL" ∧
    WekaToKaggle.prediction_label "1,1:ALB,2:BET,+,0.5" = .ok "BET" ∧
    WekaToKaggle.weka_csv_to_kaggle ["f1.jpg"] ["header one", "x,y,0.9:DOL"] =
      WekaToKaggle.weka_csv_to_kaggle ["f1.jpg"] ["another header", "x,y,0.9:DOL"] :=
  ⟨c2_amended_decoded_label.1 ['x'] ['y'] ['0', '.', '9'] ['D', 'O', 'L'] ['0', '.', '1']
      (by decide) (by decide) (by decide) (by decide) (by decide) (by decide),
    c2_amended_decoded_label.2.1 ['x'] ['y'] ['0', '.', '9'] ['D', 'O', 'L']
      (by decide) (by decide) (by decide) (by decide) (by decide) (by decide),
    c2_amended_decoded_label.2.2.1 ['1'] ['1', ':', 'A', 'L', 'B'] ['2']
      ['B', 'E', 'T'] ['+', ',', '0', '.', '5']
      (by decide) (by decide) (by decide) (by decide) (by decide) (by decide),
    c2_amended_decoded_label.2.2.2 ["f1.jpg"] "header one" "another header"
      ["x,y,0.9:DOL"]⟩

/-- C3: when every decoded label of the paired prefix lies in the
Label Set, the output is the header line followed by one
comma-joined, newline-terminated one-hot row per pair, in input
order; there are `1 + min M K` output lines, and each one-hot block
has the Label Set's width, exactly one `"1"`, at the index of the
label in the Label Set. -/
theorem c3_one_hot_rows (image_names_lines prediction_lines labels : List String)
    (h : List.Forall₂ WekaToKaggle.goodPair
      ((WekaToKaggle.image_names_iter image_names_lines).zip (prediction_lines.drop 1))
      labels) :
    WekaToKaggle.weka_csv_to_kaggle image_names_lines prediction_lines =
      ⟨(WekaToKaggle.CSV_TITLE ++ "\n") ::
          ((((WekaToKaggle.image_names_iter image_names_lines).zip
              (prediction_lines.drop 1)).zip labels).map fun x =>
            WekaToKaggle.rowString x.1.1 x.2),
        none⟩ ∧
    (WekaToKaggle.weka_csv_to_kaggle image_names_lines prediction_lines).out.length =
      1 + min image_names_lines.length (prediction_lines.length - 1) ∧
    ∀ l ∈ WekaToKaggle.LABEL_SET,
      (WekaToKaggle.LABEL_SET.map fun c => if c = l then "1" else "0").length =
          WekaToKaggle.LABEL_SET.length ∧
        (WekaToKaggle.LABEL_SET.map fun c => if c = l then "1" else "0").count "1" = 1 ∧
        (WekaToKaggle.LABEL_SET.map fun c => if c = l then "1" else "0").indexOf "1" =
          WekaToKaggle.LABEL_SET.indexOf l := by
  have h1 := WekaToKaggle.runStep_append h [] [WekaToKaggle.CSV_TITLE ++ "\n"]
  rw [List.append_nil] at h1
  have hmain : WekaToKaggle.weka_csv_to_kaggle image_names_lines prediction_lines =
      ⟨(WekaToKaggle.CSV_TITLE ++ "\n") ::
          ((((WekaToKaggle.image_names_iter image_names_lines).zip
              (prediction_lines.drop 1)).zip labels).map fun x =>
            WekaToKaggle.rowString x.1.1 x.2),
        none⟩ := by
    unfold WekaToKaggle.weka_csv_to_kaggle
    rw [h1]
    rfl
  refine ⟨hmain, ?_, by decide⟩
  rw [hmain]
  simp only [List.length_cons, List.length_map, List.length_zip,
    WekaToKaggle.image_names_iter, List.length_drop]
  rw [← List.Forall₂.length_eq h]
  simp only [List.length_zip, WekaToKaggle.image_names_iter, List.length_map,
    List.length_drop, Nat.min_self]
  omega

/-- Witness for C3 on the spec's example with the (strippable)
newlines absent from the prediction lines: two one-hot rows. -/
theorem c3_one_hot_rows_witness :
    WekaToKaggle.weka_csv_to_kaggle ["f1.jpg\n", "f2.jpg\n"]
        ["header", "x,y,0.9:DOL", "x,y,0.1:YFT"] =
      ⟨["image,ALB,BET,DOL,LAG,NoF,OTHER,SHARK,YFT\n", "f1.jpg,0,0,1,0,0,0,0,0\n",
          "f2.jpg,0,0,0,0,0,0,0,1\n"], none⟩ :=
  (c3_one_hot_rows ["f1.jpg\n", "f2.jpg\n"] ["header", "x,y,0.9:DOL", "x,y,0.1:YFT"]
      ["DOL", "YFT"]
      (List.Forall₂.cons ⟨rfl, by decide⟩
        (List.Forall₂.cons ⟨rfl, by decide⟩ List.Forall₂.nil))).1.trans
    (by decide)

/-- C4 counterexample: the decoded label `"image"` is not in the Label
Set, yet the remapper raises nothing: `CSV_COLS_MAP` also contains the
identifier column name, so the run completes and emits the row
`"1,0,0,0,0,0,0,0,0"` for that instance. -/
theorem c4_counterexample_image_label :
    "image" ∉ WekaToKaggle.LABEL_SET ∧
    WekaToKaggle.prediction_label "x,y,0.9:image" = .ok "image" ∧
    WekaToKaggle.weka_csv_to_kaggle ["f1.jpg"] ["h", "x,y,0.9:image"] =
      ⟨["image,ALB,BET,DOL,LAG,NoF,OTHER,SHARK,YFT\n", "1,0,0,0,0,0,0,0,0\n"], none⟩ :=
  ⟨by decide, rfl, rfl⟩

/-- C4 (amended): for a paired instance whose decoded label is not a
key of the full column map (the Label Set plus the leading `image`
identifier column), the remapper raises `KeyError` before the row for
that instance is written: the rows for the earlier (valid) instances
are already written, and no row for the failing instance or any later
one appears. -/
theorem c4_amended_unknown_label_raises (image_names_lines prediction_lines : List String)
    (pre post : List (String × String)) (labels : List String)
    (name pline l : String)
    (hsplit : (WekaToKaggle.image_names_iter image_names_lines).zip
        (prediction_lines.drop 1) = pre ++ (name, pline) :: post)
    (hpre : List.Forall₂ WekaToKaggle.goodPair pre labels)
    (hdec : WekaToKaggle.prediction_label pline = .ok l)
    (hbad : List.lookup l WekaToKaggle.CSV_COLS_MAP = none) :
    WekaToKaggle.weka_csv_to_kaggle image_names_lines prediction_lines =
      ⟨(WekaToKaggle.CSV_TITLE ++ "\n") ::
          ((pre.zip labels).map fun x => WekaToKaggle.rowString x.1.1 x.2),
        some ("KeyError: " ++ l)⟩ := by
  unfold WekaToKaggle.weka_csv_to_kaggle
  rw [hsplit, WekaToKaggle.runStep_append hpre]
  have hrec : WekaToKaggle.to_kaggle_record WekaToKaggle.CSV_COLS name l =
      .error ("KeyError: " ++ l) := by
    unfold WekaToKaggle.to_kaggle_record
    rw [hbad]
  simp only [WekaToKaggle.runStep, hdec, hrec]
  rfl

/-- Witness for C4 (amended): the second instance decodes to `"BASS"`,
which is no column name; the run keeps the first instance's row and
stops with `KeyError: BASS`, writing no second row. -/
theorem c4_amended_unknown_label_raises_witness :
    WekaToKaggle.weka_csv_to_kaggle ["f1.jpg\n", "f2.jpg\n"]
        ["h\n", "x,y,0.9:DOL", "x,y,0.5:BASS"] =
      ⟨["image,ALB,BET,DOL,LAG,NoF,OTHER,SHARK,YFT\n", "f1.jpg,0,0,1,0,0,0,0,0\n"],
        some "KeyError: BASS"⟩ :=
  (c4_amended_unknown_label_raises ["f1.jpg\n", "f2.jpg\n"]
      ["h\n", "x,y,0.9:DOL", "x,y,0.5:BASS"]
      [("f1.jpg", "x,y,0.9:DOL")] [] ["DOL"] "f2.jpg" "x,y,0.5:BASS" "BASS"
      rfl (List.Forall₂.cons ⟨rfl, by decide⟩ List.Forall₂.nil) rfl rfl).trans
    (by decide)

/-- C5: with M image names and K predictions after the discarded
header line, M ≠ K, and every paired line decoding to a column key,
the run raises nothing and writes exactly `min M K` data rows after
the header — pairing stops at the shorter stream. -/
theorem c5_length_mismatch_truncates (image_names_lines prediction_lines : List String)
    (hM : image_names_lines.length ≠ (prediction_lines.drop 1).length)
    (h : ∀ pr ∈ (WekaToKaggle.image_names_iter image_names_lines).zip
        (prediction_lines.drop 1),
      ∃ l, WekaToKaggle.prediction_label pr.2 = .ok l ∧
        (List.lookup l WekaToKaggle.CSV_COLS_MAP).isSome) :
    (WekaToKaggle.weka_csv_to_kaggle image_names_lines prediction_lines).err = none ∧
    (WekaToKaggle.weka_csv_to_kaggle image_names_lines prediction_lines).out.length =
      1 + min image_names_lines.length (prediction_lines.drop 1).length := by
  have hrun := WekaToKaggle.runStep_ok_of _ h [WekaToKaggle.CSV_TITLE ++ "\n"]
  refine ⟨hrun.1, ?_⟩
  have h2 : (WekaToKaggle.weka_csv_to_kaggle image_names_lines prediction_lines).out.length =
      1 + ((WekaToKaggle.image_names_iter image_names_lines).zip
        (prediction_lines.drop 1)).length := hrun.2
  rw [h2, List.length_zip]
  simp [WekaToKaggle.image_names_iter]

/-- Witness for C5: three image names against one prediction after the
header; the run succeeds with `1 + min 3 1 = 2` output lines. -/
theorem c5_length_mismatch_truncates_witness :
    (WekaToKaggle.weka_csv_to_kaggle ["f1.jpg", "f2.jpg", "f3.jpg"]
        ["h", "x,y,0.9:DOL"]).err = none ∧
    (WekaToKaggle.weka_csv_to_kaggle ["f1.jpg", "f2.jpg", "f3.jpg"]
        ["h", "x,y,0.9:DOL"]).out.length = 2 := by
  have := c5_length_mismatch_truncates ["f1.jpg", "f2.jpg", "f3.jpg"]
    ["h", "x,y,0.9:DOL"] (by decide) ?_
  · exact ⟨this.1, this.2.trans (by decide)⟩
  · intro pr hpr
    rcases List.mem_singleton.mp hpr with rfl
    exact ⟨"DOL", rfl, by decide⟩

/-- C9: the column map assigns index 0 to `"image"`, so a decoded
label `"image"` is not an unknown-label error: `to_kaggle_record`
overwrites the identifier cell with the integer 1 and returns a row
with no 1 among the eight label cells, whatever the image name. -/
theorem c9_image_label_overwrites_name_cell :
    ∀ image_name : String,
      List.lookup "image" WekaToKaggle.CSV_COLS_MAP = some 0 ∧
      WekaToKaggle.to_kaggle_record WekaToKaggle.CSV_COLS image_name "image" =
        .ok (WekaToKaggle.Cell.int 1 :: List.replicate 8 (WekaToKaggle.Cell.int 0)) :=
  fun _ => ⟨rfl, rfl⟩

/-- C10: `parse_predictions_csv` rebinds its path parameter to an
empty list before opening it, so every invocation, on every abstract
file system and every argument, raises `TypeError` inside `open` and
never returns a result. -/
theorem c10_parse_predictions_always_raises :
    ∀ (fs : String → Option (List String)) (predictions : String),
      WekaToKaggle.parse_predictions_csv fs predictions =
        .error "TypeError: expected str, bytes or os.PathLike object, not list" :=
  fun _ _ => rfl

/-- C6 counterexample: two label subfolders `A` and `B` both holding
`a.jpg`.  The run does raise (`FileExistsError`), but a link for the
FIRST conflicting file has already been created, refuting "creates no
link for either of the two conflicting files". -/
theorem c6_counterexample_first_link_created :
    (ImgToCsv.training_set_csv "in"
        [.dir "A" [⟨"a.jpg", true⟩], .dir "B" [⟨"a.jpg", true⟩]]).err =
      some "FileExistsError: a.jpg" ∧
    (ImgToCsv.training_set_csv "in"
        [.dir "A" [⟨"a.jpg", true⟩], .dir "B" [⟨"a.jpg", true⟩]]).links =
      [("a.jpg", "in/A/a.jpg")] ∧
    (ImgToCsv.training_set_csv "in"
        [.dir "A" [⟨"a.jpg", true⟩], .dir "B" [⟨"a.jpg", true⟩]]).links ≠ [] :=
  ⟨rfl, rfl, by decide⟩

/-- C6 (amended): for every labeled input directory whose flattened
traversal of regular files repeats a base filename — decomposed at the
FIRST repetition: the subfolders split as `preD`, then the colliding
subfolder `lab` whose entries split as `preE`, the colliding file
`ebad`, and arbitrary remainders `restE`, `postD` — the builder raises
`FileExistsError` while attempting the repeated file's link: one link
per earlier file is already created (in particular the first
conflicting file's), the manifest holds the header, the earlier rows
AND the repeated file's row, and no link for the repeated file or any
later file is created — there is never a silent overwrite. -/
theorem c6_amended_collision_raises (input_dir : String) (listing : List ImgToCsv.TopEntry)
    (preD : List (String × List ImgToCsv.FSEntry)) (lab : String)
    (preE : List ImgToCsv.FSEntry) (ebad : ImgToCsv.FSEntry)
    (restE : List ImgToCsv.FSEntry) (postD : List (String × List ImgToCsv.FSEntry))
    (hsub : ImgToCsv.subdirsOf listing = preD ++ (lab, preE ++ ebad :: restE) :: postD)
    (hfile : ebad.isFile = true)
    (hclean : ((preD.flatMap fun d =>
        (d.2.filter fun e => e.isFile).map ImgToCsv.FSEntry.name) ++
      (preE.filter fun e => e.isFile).map ImgToCsv.FSEntry.name).Nodup)
    (hdup : ebad.name ∈ (preD.flatMap fun d =>
        (d.2.filter fun e => e.isFile).map ImgToCsv.FSEntry.name) ++
      (preE.filter fun e => e.isFile).map ImgToCsv.FSEntry.name) :
    ImgToCsv.training_set_csv input_dir listing =
      ⟨(ImgToCsv.CSV_TITLE ++ "\n") ::
          ((preD.flatMap fun d => (d.2.filter fun e => e.isFile).map fun e =>
              e.name ++ "," ++ d.1 ++ "\n") ++
            ((preE.filter fun e => e.isFile).map fun e => e.name ++ "," ++ lab ++ "\n") ++
            [ebad.name ++ "," ++ lab ++ "\n"]),
        (preD.flatMap fun d => (d.2.filter fun e => e.isFile).map fun e =>
            (e.name, ImgToCsv.pathJoin (ImgToCsv.pathJoin input_dir d.1) e.name)) ++
          ((preE.filter fun e => e.isFile).map fun e =>
            (e.name, ImgToCsv.pathJoin (ImgToCsv.pathJoin input_dir lab) e.name)),
        some ("FileExistsError: " ++ ebad.name)⟩ := by
  have hne : (preD ++ (lab, preE ++ ebad :: restE) :: postD).isEmpty = false := by
    cases preD <;> rfl
  unfold ImgToCsv.training_set_csv ImgToCsv.get_subdirs
  simp only [hsub, hne, Bool.false_eq_true, if_false]
  rw [ImgToCsv.trainDirs_clean_append input_dir preD _ _ _
    (by simpa using (List.nodup_append.mp hclean).1)]
  have hpreE : (((preD.flatMap fun d => (d.2.filter fun e => e.isFile).map fun e =>
        (e.name, ImgToCsv.pathJoin (ImgToCsv.pathJoin input_dir d.1) e.name)).map
          Prod.fst) ++
      (preE.filter fun e => e.isFile).map ImgToCsv.FSEntry.name).Nodup := by
    rw [ImgToCsv.dir_links_map_fst]
    exact hclean
  have hstep := ImgToCsv.trainEntries_clean_append input_dir lab preE (ebad :: restE)
    ((ImgToCsv.CSV_TITLE ++ "\n") :: preD.flatMap (fun d =>
      (d.2.filter fun e => e.isFile).map fun e => e.name ++ "," ++ d.1 ++ "\n"))
    (preD.flatMap fun d => (d.2.filter fun e => e.isFile).map fun e =>
      (e.name, ImgToCsv.pathJoin (ImgToCsv.pathJoin input_dir d.1) e.name))
    hpreE
  have hmem : ebad.name ∈ ((preD.flatMap fun d =>
        (d.2.filter fun e => e.isFile).map fun e =>
          (e.name, ImgToCsv.pathJoin (ImgToCsv.pathJoin input_dir d.1) e.name)) ++
      (preE.filter fun e => e.isFile).map fun e =>
        (e.name, ImgToCsv.pathJoin (ImgToCsv.pathJoin input_dir lab) e.name)).map
        Prod.fst := by
    rw [List.map_append, ImgToCsv.dir_links_map_fst, ImgToCsv.entry_links_map_fst]
    exact hdup
  simp only [ImgToCsv.trainDirs, List.nil_append, List.singleton_append]
  rw [hstep]
  simp only [ImgToCsv.trainEntries, hfile, if_true, ImgToCsv.symlink,
    ImgToCsv.contains_eq_true_of_mem hmem]
  simp [List.append_assoc]

/-- Witness for C6 (amended): folders `A` and `B` each holding
`a.jpg`, decomposed with `preD = [A]`, the collision at `B`'s file. -/
theorem c6_amended_collision_raises_witness :
    ImgToCsv.training_set_csv "in"
        [.dir "A" [⟨"a.jpg", true⟩], .dir "B" [⟨"a.jpg", true⟩]] =
      ⟨["imgfile,class\n", "a.jpg,A\n", "a.jpg,B\n"],
        [("a.jpg", "in/A/a.jpg")],
        some "FileExistsError: a.jpg"⟩ :=
  (c6_amended_collision_raises "in"
      [.dir "A" [⟨"a.jpg", true⟩], .dir "B" [⟨"a.jpg", true⟩]]
      [("A", [⟨"a.jpg", true⟩])] "B" [] ⟨"a.jpg", true⟩ [] []
      rfl rfl (by decide) (by decide)).trans (by decide)

/-- C7: on a labeled directory with at least one label subfolder,
every subfolder entry a regular file, and all base filenames
distinct, the manifest is the header row followed by one
`name,label` row per file — grouped by label, inside each label in
listing order, with no sort — the run raises nothing, and the link
collection holds one entry per file, pointing at the file's original
path; the counts are `1 + sum(k_i)` manifest lines and `sum(k_i)`
links. -/
theorem c7_labeled_manifest (input_dir : String) (listing : List ImgToCsv.TopEntry)
    (hne : ImgToCsv.subdirsOf listing ≠ [])
    (hf : ∀ d ∈ ImgToCsv.subdirsOf listing, ∀ e ∈ d.2, e.isFile = true)
    (hnd : ((ImgToCsv.subdirsOf listing).flatMap fun d =>
      d.2.map ImgToCsv.FSEntry.name).Nodup) :
    ImgToCsv.training_set_csv input_dir listing =
      ⟨(ImgToCsv.CSV_TITLE ++ "\n") ::
          (ImgToCsv.subdirsOf listing).flatMap (fun d => d.2.map fun e =>
            e.name ++ "," ++ d.1 ++ "\n"),
        (ImgToCsv.subdirsOf listing).flatMap (fun d => d.2.map fun e =>
          (e.name, ImgToCsv.pathJoin (ImgToCsv.pathJoin input_dir d.1) e.name)),
        none⟩ ∧
    (ImgToCsv.training_set_csv input_dir listing).csv.length =
      1 + ((ImgToCsv.subdirsOf listing).map fun d => d.2.length).sum ∧
    (ImgToCsv.training_set_csv input_dir listing).links.length =
      ((ImgToCsv.subdirsOf listing).map fun d => d.2.length).sum := by
  have hmain : ImgToCsv.training_set_csv input_dir listing =
      ⟨(ImgToCsv.CSV_TITLE ++ "\n") ::
          (ImgToCsv.subdirsOf listing).flatMap (fun d => d.2.map fun e =>
            e.name ++ "," ++ d.1 ++ "\n"),
        (ImgToCsv.subdirsOf listing).flatMap (fun d => d.2.map fun e =>
          (e.name, ImgToCsv.pathJoin (ImgToCsv.pathJoin input_dir d.1) e.name)),
        none⟩ := by
    unfold ImgToCsv.training_set_csv ImgToCsv.get_subdirs
    have hie : (ImgToCsv.subdirsOf listing).isEmpty = false := by
      simpa [List.isEmpty_iff] using hne
    simp only [hie, Bool.false_eq_true, if_false]
    rw [ImgToCsv.trainDirs_ok input_dir _ _ _ hf (by simpa using hnd)]
    simp
  refine ⟨hmain, ?_, ?_⟩
  · rw [hmain]
    simp only [List.length_cons, List.length_flatMap, Function.comp_def, List.length_map]
    omega
  · rw [hmain]
    simp only [List.length_flatMap, Function.comp_def, List.length_map]

/-- Witness for C7: two label subfolders with one file each. -/
theorem c7_labeled_manifest_witness :
    ImgToCsv.training_set_csv "in"
        [.dir "CAR" [⟨"a.jpg", true⟩], .dir "SHIP" [⟨"b.jpg", true⟩]] =
      ⟨["imgfile,class\n", "a.jpg,CAR\n", "b.jpg,SHIP\n"],
        [("a.jpg", "in/CAR/a.jpg"), ("b.jpg", "in/SHIP/b.jpg")], none⟩ :=
  (c7_labeled_manifest "in" [.dir "CAR" [⟨"a.jpg", true⟩], .dir "SHIP" [⟨"b.jpg", true⟩]]
      (by decide) (by decide) (by decide)).1.trans (by decide)

/-- C8: for every unlabeled input directory, the test manifest is the
header row followed by one row per regular file, in lexicographically
sorted filename order, each with the fixed placeholder `0` in the
label field, and the run creates no links and raises nothing. -/
theorem c8_test_manifest (listing : List ImgToCsv.FSEntry) :
    ∃ sortedFiles : List ImgToCsv.FSEntry,
      sortedFiles.Perm (listing.filter fun e => e.isFile) ∧
      ((sortedFiles.map ImgToCsv.FSEntry.name).Sorted (· ≤ ·)) ∧
      ImgToCsv.test_set_csv listing =
        ⟨(ImgToCsv.CSV_TITLE ++ "\n") :: sortedFiles.map (fun e => e.name ++ ",0\n"),
          [], none⟩ := by
  refine ⟨(listing.insertionSort fun a b : ImgToCsv.FSEntry => a.name ≤ b.name).filter
      fun e => e.isFile,
    ?_, ?_, rfl⟩
  · exact (List.perm_insertionSort _ _).filter _
  · have hs : (listing.insertionSort fun a b : ImgToCsv.FSEntry => a.name ≤ b.name).Sorted
        fun a b => a.name ≤ b.name :=
      List.sorted_insertionSort _ _
    exact (List.pairwise_map).mpr (List.Pairwise.filter _ hs)
